import Mathlib

/-!
Verification development for the PDF outline-extraction pipeline
(`src/processor.py`, `src/structures.py`, `src/main.py`).

The pipeline is embedded shallowly: page geometry and font sizes are
rationals, heading scores are reals (the scorer divides by a sample
standard deviation, which is a square root).  Every function below is
translated from `src/processor.py`; comments cite the source lines.
-/

namespace Adobe

/-! ### Character classes and the `NUM_PAT` regular expression

`processor.py:4`:
`NUM_PAT = re.compile(r"^(?P<num>([0-9]+(\.[0-9]+)*|[IVXLCDM]+|第[一二三四五六七八九十百千]+章))\\b")`.

The pattern is a raw string, so the trailing `\\b` is the two regex tokens
"escaped backslash" and "literal b": the numeral must be followed by a
literal backslash character and then the letter `b`.  (A word boundary
would have been written `\b` inside the raw string.)  The matcher below
reproduces these semantics exactly; `specBoundaryOk` gives the
word-boundary semantics the spec describes, for comparison.
-/

def isRomanChar (c : Char) : Bool :=
  c = 'I' || c = 'V' || c = 'X' || c = 'L' || c = 'C' || c = 'D' || c = 'M'

def cjkDigits : List Char := ['一', '二', '三', '四', '五', '六', '七', '八', '九', '十', '百', '千']

def isCJKDigitChar (c : Char) : Bool := cjkDigits.contains c

/-- Maximal prefix of the form `[0-9]+(\.[0-9]+)*` (greedy, with the
backtracking behaviour of the regex engine: a trailing `.` not followed
by a digit is left unconsumed).  Returns the prefix and the rest. -/
def dottedScan : List Char → List Char × List Char
  | [] => ([], [])
  | c :: cs =>
    if c.isDigit then
      let p := dottedScan cs
      (c :: p.1, p.2)
    else if c = '.' then
      match cs with
      | d :: ds =>
        if d.isDigit then
          let p := dottedScan ds
          ('.' :: d :: p.1, p.2)
        else ([], c :: cs)
      | [] => ([], [c])
    else ([], c :: cs)

/-- What the code's `\\b` (inside a raw string) actually requires after the
numeral: a literal backslash character followed by the letter `b`. -/
def boundaryOk : List Char → Bool
  | '\\' :: 'b' :: _ => true
  | _ => false

/-- Modelled from the spec: the word-boundary check the spec ascribes to the
numbering pattern ("The numbering pattern must anchor at the start of the
text" and match "at a word boundary"): after the numeral (whose last
character is always a word character) the text must end or continue with a
non-word character. -/
def specBoundaryOk : List Char → Bool
  | [] => true
  | c :: _ => !(c.isAlphanum || c = '_')

/-- Anchored match of `NUM_PAT`'s numeral alternation, parameterised by the
check applied after the numeral.  The three alternatives start with
disjoint character classes, so the regex alternation is deterministic. -/
def numMatchCore (bdry : List Char → Bool) : List Char → Option (List Char)
  | [] => none
  | c :: cs =>
    if c.isDigit then
      let p := dottedScan (c :: cs)
      if bdry p.2 then some p.1 else none
    else if isRomanChar c then
      let p := (c :: cs).span isRomanChar
      if bdry p.2 then some p.1 else none
    else if c = '第' then
      match cs.span isCJKDigitChar with
      | ([], _) => none
      | (ds, '章' :: rest) => if bdry rest then some ('第' :: ds ++ ['章']) else none
      | (_, _) => none
    else none

/-- `NUM_PAT.match(text)`, returning the `num` group (`processor.py:4`). -/
def numMatch (s : String) : Option String :=
  (numMatchCore boundaryOk s.data).map String.mk

/-- Modelled from the spec: the numbering match as the spec describes it
(numeral at the start of the text followed by a word boundary). -/
def specNumMatch (s : String) : Option String :=
  (numMatchCore specBoundaryOk s.data).map String.mk

/-! ### Python string helpers -/

/-- Accumulator version of Python `str.split()`: split on runs of
whitespace, dropping empty pieces. -/
def splitWsAux : List Char → List Char → List (List Char)
  | cur, [] => if cur.isEmpty then [] else [cur.reverse]
  | cur, c :: cs =>
    if c.isWhitespace then
      if cur.isEmpty then splitWsAux [] cs else cur.reverse :: splitWsAux [] cs
    else splitWsAux (c :: cur) cs

/-- Python `text.split()` (whitespace-delimited tokens). -/
def pyTokens (s : String) : List String := (splitWsAux [] s.data).map String.mk

/-- Python `" ".join(text.split())`: collapse internal whitespace. -/
def collapse (s : String) : String := " ".intercalate (pyTokens s)

/-- Python `str.strip()`. -/
def pyStrip (s : String) : String :=
  String.mk (((s.data.dropWhile Char.isWhitespace).reverse.dropWhile Char.isWhitespace).reverse)

/-- Python `text.rstrip().endswith(":")` (`processor.py:133`). -/
def endsWithColon (s : String) : Bool :=
  match s.data.reverse.dropWhile Char.isWhitespace with
  | c :: _ => c = ':'
  | [] => false

/-- Does `hay` begin with `pat`? -/
def listStarts : List Char → List Char → Bool
  | [], _ => true
  | _ :: _, [] => false
  | p :: ps, h :: hs => p = h && listStarts ps hs

/-- Python `pat in hay` for strings (substring containment). -/
def isSubstring : List Char → List Char → Bool
  | pat, [] => pat.isEmpty
  | pat, c :: t => listStarts pat (c :: t) || isSubstring pat t

/-- Python `pat in hay` on `String`s. -/
def strContains (hay pat : String) : Bool := isSubstring pat.data hay.data

/-- Python `str.lower()` (ASCII model): lower-case every character. -/
def strLower (s : String) : String := String.mk (s.data.map Char.toLower)

/-- Python `str.isupper()` (ASCII model): at least one cased character and
no lowercase character. -/
def pyIsUpper (s : String) : Bool :=
  s.data.any (fun c => c.isUpper || c.isLower) && s.data.all (fun c => !c.isLower)

/-- Python `round()` on a rational: round half to even. -/
def pyRound (q : ℚ) : ℤ :=
  let f := ⌊q⌋
  let r := q - f
  if r < 1 / 2 then f
  else if 1 / 2 < r then f + 1
  else if f % 2 = 0 then f else f + 1

/-! ### Statistics helpers (`statistics.median` / `.mean` / `.stdev`) -/

/-- Ascending sort of a rational list (insertion sort; agrees with Python
`sorted` since equal rationals are indistinguishable). -/
def pySorted (xs : List ℚ) : List ℚ := List.insertionSort (· ≤ ·) xs

/-- `statistics.median`: middle element of the sorted list, or the average
of the two middle elements.  (Callers guard against the empty list.) -/
def pyMedian (xs : List ℚ) : ℚ :=
  let s := pySorted xs
  let n := s.length
  if n % 2 = 1 then s.getD (n / 2) 0
  else (s.getD (n / 2 - 1) 0 + s.getD (n / 2) 0) / 2

/-- `statistics.mean` of a rational list. -/
def qMean (xs : List ℚ) : ℚ := xs.sum / xs.length

/-- Sample variance (the square of `statistics.stdev`), kept in ℚ. -/
def qVariance (xs : List ℚ) : ℚ :=
  ((xs.map fun x => (x - qMean xs) ^ 2).sum) / ((xs.length : ℚ) - 1)

/-- `statistics.stdev` of a rational list (square root of the sample
variance).  (Callers guard against lists of fewer than two elements.) -/
noncomputable def qStdev (xs : List ℚ) : ℝ := Real.sqrt ((qVariance xs : ℚ) : ℝ)

/-- `statistics.mean` of a real list. -/
noncomputable def rMean (xs : List ℝ) : ℝ := xs.sum / xs.length

/-- `statistics.stdev` of a real list. -/
noncomputable def rStdev (xs : List ℝ) : ℝ :=
  Real.sqrt ((xs.map fun x => (x - rMean xs) ^ 2).sum / ((xs.length : ℝ) - 1))

/-! ### Data model (`structures.py`, and the dicts built in `extract_lines`) -/

/-- A word token as delivered by the external PDF extractor
(`page.extract_words(extra_attrs=["fontname", "size"])`). -/
structure Word where
  text : String
  x0 : ℚ
  x1 : ℚ
  top : ℚ
  bottom : ℚ
  fontname : String
  size : ℚ
deriving DecidableEq, Repr

/-- A logical line with layout and font metadata (`structures.py`,
`processor.py:68-82`). -/
structure Line where
  page : ℕ
  text : String
  font_names : List String
  font_sizes : List ℚ
  x0 : ℚ
  x1 : ℚ
  top : ℚ
  bottom : ℚ
  is_boldish : Bool
  is_all_caps : Bool
  avg_font_size : ℚ
  leading : ℚ
  indent : ℚ
deriving DecidableEq, Repr

/-- A line together with the heading score attached by `score_lines`. -/
structure ScoredLine where
  line : Line
  score : ℝ

/-- An outline entry (`processor.py:233-237`). -/
structure OutlineEntry where
  level : String
  text : String
  page : ℕ
deriving DecidableEq, Repr

/-! ### Line builder (`extract_lines`, `processor.py:28-83`) -/

/-- The per-word boldness test on a font name (`processor.py:62`):
`'Bold' in fn or 'bold' in fn or 'Black' in fn` (case-sensitive). -/
def word_boldish (fn : String) : Bool :=
  isSubstring ("Bold").data fn.data || isSubstring ("bold").data fn.data ||
    isSubstring ("Black").data fn.data

/-- Sort words by `(top, x0)` (`processor.py:40`; Python `sorted` is stable,
as is insertion sort with a non-strict relation). -/
def sortWords (ws : List Word) : List Word :=
  List.insertionSort (fun w v => w.top < v.top ∨ (w.top = v.top ∧ w.x0 ≤ v.x0)) ws

/-- One step of the grouping loop (`processor.py:40-47`): state is
(finished groups, current group, running average `last_y`). -/
def groupStep (st : List (List Word) × List Word × ℚ) (w : Word) :
    List (List Word) × List Word × ℚ :=
  let (acc, cur, ly) := st
  if |w.top - ly| ≤ 5 / 2 then (acc, cur ++ [w], (ly + w.top) / 2)
  else (acc ++ [cur], [w], w.top)

/-- Group sorted words into visual lines (`processor.py:35-49`).  The first
word initialises `last_y` to its own `top`; the trailing group is always
nonempty and is appended at the end. -/
def groupWords : List Word → List (List Word)
  | [] => []
  | w :: ws =>
    let st := ws.foldl groupStep ([], [w], w.top)
    st.1 ++ [st.2.1]

/-- Page-wide minimum `x0` over all words (`processor.py:66`). -/
def minX0 (w : Word) (ws : List Word) : ℚ := ws.foldl (fun a v => min a v.x0) w.x0

/-- Build the `Line` dict for one group of words (`processor.py:54-82`).
`pageMin` is the minimum `x0` over all words on the page; `prev_bottom` is
the previous line's bottom (`none` for the first line).  The empty-group
case cannot arise but is given a vacuous value. -/
def buildLine (page_num : ℕ) (pageMin : ℚ) (prev_bottom : Option ℚ) : List Word → Line
  | [] => ⟨page_num, "", [], [], 0, 0, 0, 0, false, false, 0, 0, 0⟩
  | w :: ws =>
    let g := w :: ws
    let text := pyStrip (" ".intercalate (g.map (·.text)))
    let font_names := g.map (·.fontname)
    let font_sizes := g.map (·.size)
    let x0 := ws.foldl (fun a v => min a v.x0) w.x0
    let x1 := ws.foldl (fun a v => max a v.x1) w.x1
    let top := ws.foldl (fun a v => min a v.top) w.top
    let bottom := ws.foldl (fun a v => max a v.bottom) w.bottom
    let is_boldish := g.any fun v => word_boldish v.fontname
    let is_all_caps := pyIsUpper text && decide (2 < text.length)
    let avg_font_size := font_sizes.sum / (font_sizes.length : ℚ)
    let leading : ℚ := match prev_bottom with | none => 0 | some b => top - b
    ⟨page_num, text, font_names, font_sizes, x0, x1, top, bottom, is_boldish,
      is_all_caps, avg_font_size, leading, x0 - pageMin⟩

/-- Build the lines for the page's groups in order, threading
`prev_bottom` (`processor.py:53-67`). -/
def buildLines (page_num : ℕ) (pageMin : ℚ) : Option ℚ → List (List Word) → List Line
  | _, [] => []
  | pb, g :: gs =>
    let l := buildLine page_num pageMin pb g
    l :: buildLines page_num pageMin (some l.bottom) gs

/-- `extract_lines(page, page_num)` (`processor.py:28-83`), with the page's
word list made explicit. -/
def extract_lines (words : List Word) (page_num : ℕ) : List Line :=
  match words with
  | [] => []
  | w :: ws =>
    buildLines page_num (minX0 w ws) none (groupWords (sortWords (w :: ws)))

/-! ### Placeholder stages (`processor.py:86-95`) -/

/-- `drop_repeating_headers` (`processor.py:86-89`): the body is a TODO
placeholder that returns its input unchanged. -/
def drop_repeating_headers (lines : List Line) : List Line := lines

/-- `merge_wrapped_heading_lines` (`processor.py:92-95`): likewise a TODO
placeholder. -/
def merge_wrapped_heading_lines (lines : List Line) : List Line := lines

/-! ### Heading scorer (`score_lines`, `processor.py:98-145`) -/

/-- Font sizes entering the document statistics (`processor.py:103-105`):
the positive `avg_font_size` values, with fallback `[10.0]`. -/
def fontSizeData (lines : List Line) : List ℚ :=
  let fs := (lines.filter fun l => 0 < l.avg_font_size).map (·.avg_font_size)
  if fs.isEmpty then [10] else fs

/-- `median_size` (`processor.py:106`). -/
def medianSize (lines : List Line) : ℚ := pyMedian (fontSizeData lines)

/-- `stdev_size` (`processor.py:107`): sample stdev of the font sizes, or
`1.0` when there are fewer than two data points. -/
noncomputable def stdevSize (lines : List Line) : ℝ :=
  let fs := fontSizeData lines
  if 1 < fs.length then qStdev fs else 1

/-- The positive leadings (`processor.py:109`). -/
def leadingData (lines : List Line) : List ℚ :=
  (lines.filter fun l => 0 < l.leading).map (·.leading)

/-- `median_leading` (`processor.py:110`): 0 when no line has positive
leading. -/
def medianLeading (lines : List Line) : ℚ :=
  let ls := leadingData lines
  if ls.isEmpty then 0 else pyMedian ls

/-- `page_height_hint` (`processor.py:247-250`). -/
def page_height_hint (l : Line) : ℚ := max (l.bottom + 50) 792

/-- The score of one line given the document statistics
(`processor.py:114-144`).  `min_x0` (`processor.py:112`) is computed by the
source but never used in the scoring loop, so it is not a parameter. -/
noncomputable def scoreWith (median_size : ℚ) (stdev_size : ℝ) (median_leading : ℚ)
    (l : Line) : ℝ :=
  let size_z : ℝ :=
    if stdev_size = 0 then 0
    else (((l.avg_font_size : ℚ) : ℝ) - ((median_size : ℚ) : ℝ)) / stdev_size
  let tok := (pyTokens l.text).length
  let gap_ratio : ℚ :=
    if median_leading ≠ 0 ∧ l.leading ≠ 0 then l.leading / median_leading else 1
  size_z * 2
    + (if l.is_boldish then 1 else 0)
    + (if 5 < tok ∧ tok < 25 then 1 else if tok ≤ 5 then -(1 / 4 : ℝ) else 0)
    + (if (numMatch l.text).isSome then (3 / 2 : ℝ) else 0)
    + (if (3 / 2 : ℚ) < gap_ratio then (3 / 4 : ℝ) else 0)
    + (if endsWithColon l.text then (1 / 4 : ℝ) else 0)
    + (if l.is_all_caps then (1 / 2 : ℝ) else 0)
    + (if |l.indent| < 5 then (1 / 2 : ℝ) else 0)
    + (if l.page = 1 ∧ l.top < page_height_hint l * (1 / 4) then 1 else 0)

/-- The score `score_lines` assigns to line `l` of document `lines`. -/
noncomputable def lineScore (lines : List Line) (l : Line) : ℝ :=
  scoreWith (medianSize lines) (stdevSize lines) (medianLeading lines) l

/-- `score_lines` (`processor.py:98-145`): annotate each line, in order,
with its score.  (The Python code mutates the dicts in place and returns
the same list.) -/
noncomputable def score_lines (lines : List Line) : List ScoredLine :=
  lines.map fun l => ⟨l, lineScore lines l⟩

/-! ### Candidate selector (`scored_threshold`, `processor.py:148-155`;
selection at `processor.py:20`) -/

/-- `scored_threshold` (`processor.py:148-155`): 0 on the empty list, else
mean plus sample stdev of the scores (stdev taken as 0 when there are
fewer than two scores). -/
noncomputable def scored_threshold (scored : List ScoredLine) : ℝ :=
  let scores := scored.map (·.score)
  if scores.isEmpty then 0
  else rMean scores + (if 1 < scores.length then rStdev scores else 0)

/-- Candidate selection (`processor.py:20`):
`[l for l in scored if l["score"] >= scored_threshold(scored)]`. -/
noncomputable def select_cands (scored : List ScoredLine) : List ScoredLine :=
  scored.filter fun l => scored_threshold scored ≤ l.score

/-! ### Title detector (`detect_title`, `processor.py:158-187`).  The PDF
metadata title is modelled as an explicit `meta_title` argument (empty
string when the metadata is absent); everything else follows the code. -/

/-- The path-1 condition (`processor.py:167-168`): the stripped metadata
title is nonempty and occurs case-insensitively in one of the first 20
scored lines. -/
def meta_cond (meta_title : String) (scored : List ScoredLine) : Bool :=
  let mt := pyStrip meta_title
  if mt = "" then false
  else (scored.take 20).any fun l => strContains (strLower l.line.text) (strLower mt)

/-- Python `max(page1, key=score)`: first element of maximal score. -/
noncomputable def maxByScore (b : ScoredLine) (t : List ScoredLine) : ScoredLine :=
  t.foldl (fun acc l => if acc.score < l.score then l else acc) b

/-- Path 4 (`processor.py:184-187`): first candidate's text, else `None`. -/
def title_path4 (cands : List ScoredLine) : Option String :=
  match cands with
  | [] => none
  | h :: _ => some (collapse h.line.text)

/-- Path 3 (`processor.py:176-183`): first page-1 line whose font size
exceeds the page-1 median and whose center is within 15% of page width of
the page center. -/
def title_path3 (scored cands : List ScoredLine) : Option String :=
  let p1 := scored.filter fun l => l.line.page = 1
  if p1.isEmpty then title_path4 cands
  else
    let w := match p1.map (fun l => l.line.x1) with
             | [] => (600 : ℚ)
             | h :: t => t.foldl max h
    let med := pyMedian (p1.map fun l => l.line.avg_font_size)
    match p1.find? (fun l =>
        decide (med < l.line.avg_font_size) &&
        decide (|(l.line.x0 + l.line.x1) / 2 - w / 2| < w * (3 / 20))) with
    | some l => some (collapse l.line.text)
    | none => title_path4 cands

/-- Path 2 (`processor.py:170-175`): the highest-scoring page-1 candidate,
if its score is strictly positive; otherwise fall through to path 3. -/
noncomputable def title_path2 (scored cands : List ScoredLine) : Option String :=
  match cands.filter fun l => l.line.page = 1 with
  | [] => title_path3 scored cands
  | b :: t =>
    let best := maxByScore b t
    if 0 < best.score then some (collapse best.line.text)
    else title_path3 scored cands

/-- `detect_title` (`processor.py:158-187`). -/
noncomputable def detect_title (meta_title : String) (scored cands : List ScoredLine) :
    Option String :=
  if meta_cond meta_title scored then some (collapse (pyStrip meta_title))
  else title_path2 scored cands

/-! ### Level assigner (`assign_levels`, `processor.py:189-245`) -/

/-- `sorted(set(avg_font_size))`, ascending (`processor.py:194`). -/
def sizesOf (cands : List ScoredLine) : List ℚ :=
  pySorted ((cands.map fun l => l.line.avg_font_size).dedup)

/-- The three descending size thresholds (`processor.py:195-198`). -/
def thresholdsOf (cands : List ScoredLine) : List ℚ :=
  let sizes := sizesOf cands
  if 3 ≤ sizes.length then
    [sizes.getD (sizes.length - 1) 0, sizes.getD (sizes.length - 2) 0,
      sizes.getD (sizes.length - 3) 0]
  else sizes.reverse ++ List.replicate (3 - sizes.length) (sizes.getD 0 0)

/-- `font_level` (`processor.py:199-205`). -/
def font_level (thresholds : List ℚ) (size : ℚ) : ℕ :=
  if thresholds.getD 0 0 ≤ size then 1
  else if thresholds.getD 1 0 ≤ size then 2
  else 3

/-- `numbering_level` (`processor.py:207-217`): depth from the matched
numeral (`min(num.count(".") + 1, 3)` for dotted numerals, otherwise 1). -/
def numbering_level (text : String) : Option ℕ :=
  match numMatch text with
  | none => none
  | some num =>
    if num.data.contains '.' then some (min (num.data.count '.' + 1) 3)
    else if num.data.any isCJKDigitChar then some 1
    else some 1

/-- The combined level of one candidate (`processor.py:222-227`):
`min(font_level, numbering_level)` when a numbering match exists, then the
indent demotion. -/
def entryLevel (thresholds : List ℚ) (l : ScoredLine) : ℕ :=
  let f := font_level thresholds l.line.avg_font_size
  let lev := match numbering_level l.line.text with
             | some n => min f n
             | none => f
  if 1 < lev ∧ 10 < l.line.indent then min (lev + 1) 3 else lev

/-- Level string `f"H{level}"`. -/
def levelStr (n : ℕ) : String := "H" ++ toString n

/-- The emission loop of `assign_levels` (`processor.py:219-237`) with its
de-duplication set (trimmed text, page, rounded top). -/
def emitLoop (thresholds : List ℚ) : List ScoredLine → List (String × ℕ × ℤ) →
    List OutlineEntry
  | [], _ => []
  | l :: rest, seen =>
    let key := (pyStrip l.line.text, l.line.page, pyRound l.line.top)
    if key ∈ seen then emitLoop thresholds rest seen
    else ⟨levelStr (entryLevel thresholds l), pyStrip l.line.text, l.line.page⟩ ::
      emitLoop thresholds rest (key :: seen)

/-- The H1 guarantee (`processor.py:239-240`): if no entry is H1, promote
the first entry. -/
def promoteH1 (outline : List OutlineEntry) : List OutlineEntry :=
  if outline.any fun o => o.level = "H1" then outline
  else match outline with
    | [] => []
    | h :: t => ⟨"H1", h.text, h.page⟩ :: t

/-- The left-to-right H3 repair (`processor.py:242-244`): `done` is the
already-processed (and possibly already-repaired) prefix, matching the
in-place mutation of the Python loop. -/
def fixH3Aux (done : List OutlineEntry) : List OutlineEntry → List OutlineEntry
  | [] => done
  | o :: rest =>
    let o2 := if o.level = "H3" ∧ ¬ done.any (fun p => p.level = "H2") then
        (⟨"H2", o.text, o.page⟩ : OutlineEntry)
      else o
    fixH3Aux (done ++ [o2]) rest

/-- The H3-without-preceding-H2 repair pass. -/
def fixH3 (outline : List OutlineEntry) : List OutlineEntry := fixH3Aux [] outline

/-- `assign_levels` (`processor.py:189-245`). -/
def assign_levels (cands : List ScoredLine) : List OutlineEntry :=
  if cands.isEmpty then []
  else fixH3 (promoteH1 (emitLoop (thresholdsOf cands) cands []))

/-! ### The per-document pipeline (`process_pdf`, `processor.py:8-25`),
from the extracted lines onward. -/

/-- The pipeline after word extraction (`processor.py:16-25`): filter,
merge, score, select candidates, detect the title, assign levels. -/
noncomputable def process_lines (meta_title : String) (all_lines : List Line) :
    Option String × List OutlineEntry :=
  let lines := merge_wrapped_heading_lines (drop_repeating_headers all_lines)
  let scored := score_lines lines
  let cands := select_cands scored
  (detect_title meta_title scored cands, assign_levels cands)

/-! ### Concrete fixtures used in witnesses and counterexamples -/

/-- A plausible heading line whose text starts with a dotted numeral. -/
def introLine : Line :=
  ⟨1, "1. Introduction", ["Helvetica"], [10], 72, 160, 100, 110, false, false, 10, 0, 0⟩

/-- A running header repeated at the same vertical position on page `p`. -/
def headerLine (p : ℕ) : Line :=
  ⟨p, "Page header", ["Helvetica"], [9], 72, 150, 20, 29, false, false, 9, 0, 0⟩

/-- A word whose font name contains "black" only in lower case. -/
def blackWord : Word := ⟨"Title", 72, 160, 100, 110, "arial-black", 10⟩

/-- Modelled from the spec: the boldness predicate the spec describes —
case-insensitive substring match of "bold" or "black" in a font name. -/
def claim_boldish (fn : String) : Bool :=
  isSubstring ("bold").data (strLower fn).data || isSubstring ("black").data (strLower fn).data

/-- A scored line of score 1. -/
noncomputable def sl1 : ScoredLine := ⟨introLine, 1⟩

/-- A page-1 scored line of strictly positive score 2. -/
noncomputable def sl2 : ScoredLine := ⟨introLine, 2⟩

/-! ## Theorems -/

/-- C6: the header/footer filter is a TODO placeholder: it returns every
input unchanged, in particular a document whose identical "Page header"
line repeats at the same vertical position on all three pages keeps all
three instances, contradicting the contract in the spec and the
function's own docstring. -/
theorem header_filter_noop_bug :
    (∀ ls, drop_repeating_headers ls = ls) ∧
      drop_repeating_headers [headerLine 1, headerLine 2, headerLine 3] =
        [headerLine 1, headerLine 2, headerLine 3] :=
  ⟨fun _ => rfl, rfl⟩

/-- C3: an outline emitted with levels `[H3, H2, H1]` becomes
`[H2, H2, H1]` after the post-processing of `assign_levels` (the H1
guarantee leaves it unchanged, and the left-to-right H3 repair demotes the
first entry because no H2 precedes it). -/
theorem repair_h3_h2_h1 (t1 t2 t3 : String) (p1 p2 p3 : ℕ) :
    fixH3 (promoteH1 [⟨"H3", t1, p1⟩, ⟨"H2", t2, p2⟩, ⟨"H1", t3, p3⟩]) =
      [⟨"H2", t1, p1⟩, ⟨"H2", t2, p2⟩, ⟨"H1", t3, p3⟩] := by
  rfl

/-- C8 counterexample: on the text `1.2\bIntro` (the only kind of text the
code's pattern can match, because of the literal-backslash requirement)
the matched numeral is `1.2`, which has one `.` separator, yet
`numbering_level` returns 2, not `min 1 3 = 1` as the claim states. -/
theorem numbering_depth_count_cex :
    numMatch "1.2\\bIntro" = some "1.2" ∧
      numbering_level "1.2\\bIntro" = some 2 ∧
      ("1.2").data.count '.' = 1 ∧
      numbering_level "1.2\\bIntro" ≠ some (min (("1.2").data.count '.') 3) := by
  decide

/-- C8 amended: for every text the numbering pattern matches, the level
used by the level assigner is one plus the number of `.` separators in
the matched numeral, capped at 3, for dotted numerals; bare Roman/integer
numerals and CJK chapter markers yield level 1. -/
theorem numbering_depth_plus_one (text num : String) (h : numMatch text = some num) :
    numbering_level text =
      some (if num.data.contains '.' then min (num.data.count '.' + 1) 3 else 1) := by
  simp only [numbering_level, h]
  split_ifs <;> rfl

/-- Witness for C8's amended theorem at the concrete text `1.2\bIntro`. -/
theorem numbering_depth_plus_one_witness :
    numMatch "1.2\\bIntro" = some "1.2" ∧
      numbering_level "1.2\\bIntro" =
        some (if ("1.2").data.contains '.' then min (("1.2").data.count '.' + 1) 3
          else 1) :=
  ⟨by decide, numbering_depth_plus_one ("1.2\\bIntro") ("1.2") (by decide)⟩

/-- C5: a document with no extracted lines (zero pages or zero words)
produces exactly the empty result: no title and an empty outline. -/
theorem empty_document_result :
    (∀ p, extract_lines [] p = []) ∧ ∀ mt, process_lines mt [] = (none, []) := by
  refine ⟨fun p => rfl, fun mt => ?_⟩
  have hmc : meta_cond mt [] = false := by
    unfold meta_cond
    simp only [List.take_nil, List.any_nil, ite_self]
  simp only [process_lines, drop_repeating_headers, merge_wrapped_heading_lines,
    score_lines, List.map_nil, select_cands, List.filter_nil, detect_title, hmc,
    Bool.false_eq_true, if_false, title_path2, title_path3, title_path4,
    List.isEmpty_nil, if_true, assign_levels]

/-- C1: the code's numbering bonus never fires on ordinary numbered
headings.  The spec's word-boundary pattern matches "1. Introduction"
(numeral `1`), but `NUM_PAT` — whose raw-string `\\b` demands a literal
backslash and letter b after the numeral — does not, so `score_lines`
gives the line only `-0.25 + 0.5 + 1.0 = 1.25`, without the `+1.5`
numbering contribution the claim requires. -/
theorem numbering_bonus_not_added_bug :
    specNumMatch "1. Introduction" = some "1" ∧
      numMatch "1. Introduction" = none ∧
      score_lines [introLine] = [⟨introLine, (5 / 4 : ℝ)⟩] := by
  refine ⟨by decide, by decide, ?_⟩
  have h2 : medianSize [introLine] = 10 := by decide
  have h3 : medianLeading [introLine] = 0 := by decide
  have h1 : fontSizeData [introLine] = [10] := by decide
  have hst : stdevSize [introLine] = 1 := by
    simp only [stdevSize, h1, List.length_cons, List.length_nil]
    norm_num
  have htok : (pyTokens "1. Introduction").length = 2 := by decide
  have hnum : (numMatch "1. Introduction").isSome = false := by decide
  have hcol : endsWithColon "1. Introduction" = false := by decide
  have hscore : lineScore [introLine] introLine = (5 / 4 : ℝ) := by
    unfold lineScore
    rw [h2, h3, hst]
    simp only [scoreWith, introLine, htok, hnum, hcol, page_height_hint]
    norm_num
  simp only [score_lines, List.map_cons, List.map_nil, hscore]

/-- C2: a scored line is selected as a candidate iff its score is at least
`mean + sample stdev` of all scores (the stdev taken as 0 when there are
fewer than two scored lines); the empty list has threshold 0 and yields
no candidates. -/
theorem candidate_threshold_spec (scored : List ScoredLine) (h : scored ≠ []) :
    (∀ l, l ∈ select_cands scored ↔ l ∈ scored ∧ scored_threshold scored ≤ l.score) ∧
      scored_threshold scored =
        rMean (scored.map (·.score)) +
          (if scored.length < 2 then 0 else rStdev (scored.map (·.score))) ∧
      select_cands ([] : List ScoredLine) = [] ∧
      scored_threshold ([] : List ScoredLine) = 0 := by
  refine ⟨?_, ?_, rfl, rfl⟩
  · intro l
    simp [select_cands, List.mem_filter]
  · have hne : (scored.map (·.score)).isEmpty = false := by
      cases scored with
      | nil => exact absurd rfl h
      | cons a t => rfl
    simp only [scored_threshold, hne, Bool.false_eq_true, if_false, List.length_map]
    by_cases h2 : scored.length < 2
    · rw [if_pos h2, if_neg (by omega)]
    · rw [if_neg h2, if_pos (by omega)]

/-- Witness for C2 at the singleton scored list `[sl1]`. -/
theorem candidate_threshold_spec_witness :
    ([sl1] : List ScoredLine) ≠ [] ∧
      ((∀ l, l ∈ select_cands [sl1] ↔ l ∈ [sl1] ∧ scored_threshold [sl1] ≤ l.score) ∧
        scored_threshold [sl1] =
          rMean (([sl1] : List ScoredLine).map (·.score)) +
            (if ([sl1] : List ScoredLine).length < 2 then 0
              else rStdev (([sl1] : List ScoredLine).map (·.score))) ∧
        select_cands ([] : List ScoredLine) = [] ∧
        scored_threshold ([] : List ScoredLine) = 0) :=
  ⟨by simp, candidate_threshold_spec [sl1] (by simp)⟩

/-- Helper: `any` over a mapped field equals `any` of the composition. -/
theorem any_fontname_map (ws : List Word) (p : String → Bool) :
    (ws.map fun v => v.fontname).any p = ws.any fun v => p v.fontname := by
  induction ws with
  | nil => rfl
  | cons w t ih => simp [ih]

/-- Helper: a built line's boldness flag is the code's case-sensitive
per-font-name test over the line's own font names. -/
theorem buildLine_boldish (pn : ℕ) (pm : ℚ) (pb : Option ℚ) (g : List Word) :
    (buildLine pn pm pb g).is_boldish =
      (buildLine pn pm pb g).font_names.any word_boldish := by
  cases g with
  | nil => rfl
  | cons w ws =>
    simp [buildLine, any_fontname_map]

/-- Helper: the same for every line produced by `buildLines`. -/
theorem buildLines_boldish (pn : ℕ) (pm : ℚ) (pb : Option ℚ) (gs : List (List Word)) :
    ∀ l ∈ buildLines pn pm pb gs, l.is_boldish = l.font_names.any word_boldish := by
  induction gs generalizing pb with
  | nil => intro l hl; cases hl
  | cons g gs ih =>
    intro l hl
    rcases List.mem_cons.mp hl with h1 | h2
    · rw [h1]; exact buildLine_boldish _ _ _ _
    · exact ih _ l h2

/-- C7 counterexample: the word with font name "arial-black" (lower-case
b) yields an extracted line with `is_boldish = false` even though "black"
is a case-insensitive substring of the font name, refuting the claimed
iff. -/
theorem boldish_case_insensitive_cex :
    ∃ l ∈ extract_lines [blackWord] 1,
      l.is_boldish = false ∧ l.font_names.any claim_boldish = true := by
  decide

/-- C7 amended: for every extracted line, `is_boldish` is true iff some
constituent word's font name contains `Bold`, `bold`, or `Black` as a
case-sensitive substring (the code does not match `black`, `BOLD`, and
other casings). -/
theorem boldish_case_sensitive (words : List Word) (page_num : ℕ) :
    (extract_lines words page_num).map (·.is_boldish) =
      (extract_lines words page_num).map fun l => l.font_names.any word_boldish := by
  cases words with
  | nil => rfl
  | cons w ws =>
    apply List.map_congr_left
    intro l hl
    exact buildLines_boldish _ _ _ _ l hl

/-- Helper: Python `max(..., key=score)` returns an element of the list. -/
theorem maxByScore_mem (b : ScoredLine) (t : List ScoredLine) :
    maxByScore b t ∈ b :: t := by
  induction t generalizing b with
  | nil => exact List.mem_cons_self _ _
  | cons c t ih =>
    have hrw : maxByScore b (c :: t) =
        maxByScore (if b.score < c.score then c else b) t := rfl
    rw [hrw]
    rcases List.mem_cons.mp (ih (if b.score < c.score then c else b)) with h1 | h2
    · rw [h1]
      split_ifs
      · exact List.mem_cons_of_mem _ (List.mem_cons_self _ _)
      · exact List.mem_cons_self _ _
    · exact List.mem_cons_of_mem _ (List.mem_cons_of_mem _ h2)

/-- Helper: Python `max(..., key=score)` dominates every list element. -/
theorem maxByScore_le (b : ScoredLine) (t : List ScoredLine) :
    ∀ l ∈ b :: t, l.score ≤ (maxByScore b t).score := by
  induction t generalizing b with
  | nil =>
    intro l hl
    rcases List.mem_cons.mp hl with h1 | h2
    · rw [h1]; exact le_refl _
    · cases h2
  | cons c t ih =>
    intro l hl
    have hrw : maxByScore b (c :: t) =
        maxByScore (if b.score < c.score then c else b) t := rfl
    rw [hrw]
    have hb : b.score ≤ (if b.score < c.score then c else b).score := by
      split_ifs with hbc
      · exact le_of_lt hbc
      · exact le_refl _
    have hc : c.score ≤ (if b.score < c.score then c else b).score := by
      split_ifs with hbc
      · exact le_refl _
      · exact le_of_not_lt hbc
    have hhead := ih (if b.score < c.score then c else b)
        (if b.score < c.score then c else b) (List.mem_cons_self _ _)
    rcases List.mem_cons.mp hl with h1 | hl2
    · rw [h1]; exact le_trans hb hhead
    · rcases List.mem_cons.mp hl2 with h2 | h3
      · rw [h2]; exact le_trans hc hhead
      · exact ih (if b.score < c.score then c else b) l (List.mem_cons_of_mem _ h3)

/-- C4: when the metadata path fails, `detect_title` returns the collapsed
text of the highest-scoring page-1 candidate exactly when that candidate's
score is strictly positive; with a non-positive best score this path
yields nothing and the geometric/fallback paths are tried. -/
theorem title_page1_candidate_spec (mt : String) (scored cands : List ScoredLine)
    (b : ScoredLine) (t : List ScoredLine)
    (hmeta : meta_cond mt scored = false)
    (hp1 : (cands.filter fun l => l.line.page = 1) = b :: t) :
    (maxByScore b t ∈ b :: t ∧ ∀ l ∈ b :: t, l.score ≤ (maxByScore b t).score) ∧
      (0 < (maxByScore b t).score →
        detect_title mt scored cands = some (collapse (maxByScore b t).line.text)) ∧
      ((maxByScore b t).score ≤ 0 →
        detect_title mt scored cands = title_path3 scored cands) := by
  have hdt : detect_title mt scored cands = title_path2 scored cands := by
    simp only [detect_title, hmeta, Bool.false_eq_true, if_false]
  have hp2 : title_path2 scored cands =
      if 0 < (maxByScore b t).score then some (collapse (maxByScore b t).line.text)
      else title_path3 scored cands := by
    simp only [title_path2, hp1]
  refine ⟨⟨maxByScore_mem b t, maxByScore_le b t⟩, ?_, ?_⟩
  · intro h
    rw [hdt, hp2, if_pos h]
  · intro h
    rw [hdt, hp2, if_neg (not_lt.mpr h)]

/-- Witness for C4: empty scored list, a single positive page-1 candidate. -/
theorem title_page1_candidate_spec_witness :
    meta_cond "t" [] = false ∧
      (([sl2] : List ScoredLine).filter fun l => l.line.page = 1) = [sl2] ∧
      ((maxByScore sl2 [] ∈ [sl2] ∧ ∀ l ∈ ([sl2] : List ScoredLine),
          l.score ≤ (maxByScore sl2 []).score) ∧
        (0 < (maxByScore sl2 []).score →
          detect_title "t" [] [sl2] = some (collapse (maxByScore sl2 []).line.text)) ∧
        ((maxByScore sl2 []).score ≤ 0 →
          detect_title "t" [] [sl2] = title_path3 [] [sl2])) :=
  ⟨by decide, rfl, title_page1_candidate_spec "t" [] [sl2] sl2 [] (by decide) rfl⟩

/-- Helper: sorting is invariant under permutation of the input. -/
theorem perm_pySorted {xs ys : List ℚ} (h : xs.Perm ys) : pySorted xs = pySorted ys := by
  refine List.eq_of_perm_of_sorted ?_ (List.sorted_insertionSort _ xs)
    (List.sorted_insertionSort _ ys)
  exact (List.perm_insertionSort _ xs).trans (h.trans (List.perm_insertionSort _ ys).symm)

/-- Helper: the median is invariant under permutation. -/
theorem perm_pyMedian {xs ys : List ℚ} (h : xs.Perm ys) : pyMedian xs = pyMedian ys := by
  unfold pyMedian
  rw [perm_pySorted h]

/-- Helper: the mean is invariant under permutation. -/
theorem perm_qMean {xs ys : List ℚ} (h : xs.Perm ys) : qMean xs = qMean ys := by
  unfold qMean
  rw [h.sum_eq, h.length_eq]

/-- Helper: the sample variance is invariant under permutation. -/
theorem perm_qVariance {xs ys : List ℚ} (h : xs.Perm ys) : qVariance xs = qVariance ys := by
  unfold qVariance
  rw [perm_qMean h, (h.map fun x => (x - qMean ys) ^ 2).sum_eq, h.length_eq]

/-- Helper: the font-size data (with its `[10]` fallback) of permuted line
lists are permutations of each other. -/
theorem perm_fontSizeData {xs ys : List Line} (h : xs.Perm ys) :
    (fontSizeData xs).Perm (fontSizeData ys) := by
  have hp : ((xs.filter fun l => 0 < l.avg_font_size).map (·.avg_font_size)).Perm
      ((ys.filter fun l => 0 < l.avg_font_size).map (·.avg_font_size)) :=
    (h.filter _).map _
  simp only [fontSizeData]
  cases hx : (xs.filter fun l => 0 < l.avg_font_size).map (·.avg_font_size) with
  | nil =>
    cases hy : (ys.filter fun l => 0 < l.avg_font_size).map (·.avg_font_size) with
    | nil => simp
    | cons b u =>
      rw [hx, hy] at hp
      exact absurd hp.symm.eq_nil (by simp)
  | cons a t =>
    cases hy : (ys.filter fun l => 0 < l.avg_font_size).map (·.avg_font_size) with
    | nil =>
      rw [hx, hy] at hp
      exact absurd hp.eq_nil (by simp)
    | cons b u =>
      rw [hx, hy] at hp
      simpa using hp

/-- Helper: the leading data of permuted line lists are permutations. -/
theorem perm_leadingData {xs ys : List Line} (h : xs.Perm ys) :
    (leadingData xs).Perm (leadingData ys) := by
  unfold leadingData
  exact (h.filter _).map _

/-- Helper: `median_size` is order-independent. -/
theorem perm_medianSize {xs ys : List Line} (h : xs.Perm ys) :
    medianSize xs = medianSize ys := by
  unfold medianSize
  exact perm_pyMedian (perm_fontSizeData h)

/-- Helper: `stdev_size` (with its fewer-than-two fallback) is
order-independent. -/
theorem perm_stdevSize {xs ys : List Line} (h : xs.Perm ys) :
    stdevSize xs = stdevSize ys := by
  have hp := perm_fontSizeData h
  simp only [stdevSize]
  rw [hp.length_eq]
  by_cases hl : 1 < (fontSizeData ys).length
  · rw [if_pos hl, if_pos hl]
    unfold qStdev
    rw [perm_qVariance hp]
  · rw [if_neg hl, if_neg hl]

/-- Helper: `median_leading` (with its empty fallback) is
order-independent. -/
theorem perm_medianLeading {xs ys : List Line} (h : xs.Perm ys) :
    medianLeading xs = medianLeading ys := by
  have hp := perm_leadingData h
  simp only [medianLeading]
  cases hx : leadingData xs with
  | nil =>
    cases hy : leadingData ys with
    | nil => rfl
    | cons b u =>
      rw [hx, hy] at hp
      exact absurd hp.symm.eq_nil (by simp)
  | cons a t =>
    cases hy : leadingData ys with
    | nil =>
      rw [hx, hy] at hp
      exact absurd hp.eq_nil (by simp)
    | cons b u =>
      rw [hx, hy] at hp
      simp only [List.isEmpty_cons, Bool.false_eq_true, if_false]
      exact perm_pyMedian hp

/-- C9: `score_lines` is order-independent: on any permutation of the line
list, each line receives exactly the score it receives in the original
run, because a line's score depends only on its own features and on the
permutation-invariant document statistics (median/sample stdev of font
sizes and median of positive leadings). -/
theorem score_permutation_invariant (xs ys : List Line) (h : xs.Perm ys) :
    score_lines ys = ys.map fun l => (⟨l, lineScore xs l⟩ : ScoredLine) := by
  unfold score_lines
  have hms : medianSize ys = medianSize xs := perm_medianSize h.symm
  have hst : stdevSize ys = stdevSize xs := perm_stdevSize h.symm
  have hml : medianLeading ys = medianLeading xs := perm_medianLeading h.symm
  simp only [lineScore, hms, hst, hml]

/-- Witness for C9 at a two-line document and its swap. -/
theorem score_permutation_invariant_witness :
    ([introLine, headerLine 1] : List Line).Perm [headerLine 1, introLine] ∧
      score_lines [headerLine 1, introLine] =
        [headerLine 1, introLine].map fun l =>
          (⟨l, lineScore [introLine, headerLine 1] l⟩ : ScoredLine) :=
  ⟨List.Perm.swap _ _ _,
    score_permutation_invariant _ _ (List.Perm.swap _ _ _)⟩

/-- Helper: `font_level` always returns 1, 2 or 3. -/
theorem font_level_range (T : List ℚ) (s : ℚ) :
    1 ≤ font_level T s ∧ font_level T s ≤ 3 := by
  unfold font_level
  split_ifs <;> omega

/-- Helper: a successful `numbering_level` is between 1 and 3. -/
theorem numbering_level_range (t : String) (n : ℕ) (h : numbering_level t = some n) :
    1 ≤ n ∧ n ≤ 3 := by
  unfold numbering_level at h
  cases hm : numMatch t with
  | none => rw [hm] at h; cases h
  | some num =>
    rw [hm] at h
    dsimp only at h
    split_ifs at h
    · injection h with h
      subst h
      exact ⟨le_min (Nat.succ_le_succ (Nat.zero_le _)) (by norm_num), min_le_right _ _⟩
    · injection h with h
      subst h
      exact ⟨le_refl 1, by norm_num⟩
    · injection h with h
      subst h
      exact ⟨le_refl 1, by norm_num⟩

/-- Helper: the combined candidate level is between 1 and 3. -/
theorem entryLevel_range (T : List ℚ) (l : ScoredLine) :
    1 ≤ entryLevel T l ∧ entryLevel T l ≤ 3 := by
  unfold entryLevel
  have hf := font_level_range T l.line.avg_font_size
  cases hm : numbering_level l.line.text with
  | none =>
    simp only [hm]
    split_ifs
    · exact ⟨le_min (Nat.succ_le_succ (Nat.zero_le _)) (by norm_num), min_le_right _ _⟩
    · exact hf
  | some n =>
    have hn := numbering_level_range _ _ hm
    simp only [hm]
    split_ifs
    · exact ⟨le_min (Nat.succ_le_succ (Nat.zero_le _)) (by norm_num), min_le_right _ _⟩
    · exact ⟨le_min hf.1 hn.1, le_trans (min_le_left _ _) hf.2⟩

/-- Helper: `levelStr` of a number between 1 and 3 is H1, H2 or H3. -/
theorem levelStr_range (n : ℕ) (h1 : 1 ≤ n) (h3 : n ≤ 3) :
    levelStr n = "H1" ∨ levelStr n = "H2" ∨ levelStr n = "H3" := by
  interval_cases n
  · exact Or.inl rfl
  · exact Or.inr (Or.inl rfl)
  · exact Or.inr (Or.inr rfl)

/-- Helper: every entry emitted by the assignment loop has level H1, H2
or H3. -/
theorem emitLoop_levels (T : List ℚ) (cs : List ScoredLine) :
    ∀ seen, ∀ o ∈ emitLoop T cs seen,
      o.level = "H1" ∨ o.level = "H2" ∨ o.level = "H3" := by
  induction cs with
  | nil => intro seen o ho; cases ho
  | cons l rest ih =>
    intro seen o ho
    simp only [emitLoop] at ho
    split at ho
    · exact ih _ o ho
    · rcases List.mem_cons.mp ho with h1 | h2
      · rw [h1]
        obtain ⟨ha, hb⟩ := entryLevel_range T l
        exact levelStr_range _ ha hb
      · exact ih _ o h2

/-- Helper: promoting the first entry to H1 keeps the outline nonempty. -/
theorem promoteH1_ne_nil {l : List OutlineEntry} (h : l ≠ []) : promoteH1 l ≠ [] := by
  unfold promoteH1
  split_ifs
  · exact h
  · cases l with
    | nil => exact absurd rfl h
    | cons a t => simp

/-- Helper: promotion preserves the H1/H2/H3 level range. -/
theorem promoteH1_levels {l : List OutlineEntry}
    (hl : ∀ o ∈ l, o.level = "H1" ∨ o.level = "H2" ∨ o.level = "H3") :
    ∀ o ∈ promoteH1 l, o.level = "H1" ∨ o.level = "H2" ∨ o.level = "H3" := by
  unfold promoteH1
  split_ifs
  · exact hl
  · cases l with
    | nil => intro o ho; cases ho
    | cons a t =>
      intro o ho
      rcases List.mem_cons.mp ho with h1 | h2
      · rw [h1]; exact Or.inl rfl
      · exact hl o (List.mem_cons_of_mem _ h2)

/-- Helper: after promotion, a nonempty outline contains an H1 entry. -/
theorem promoteH1_exists {l : List OutlineEntry} (h : l ≠ []) :
    ∃ o ∈ promoteH1 l, o.level = "H1" := by
  unfold promoteH1
  split_ifs with hany
  · obtain ⟨o, ho, hlev⟩ := List.any_eq_true.mp hany
    exact ⟨o, ho, of_decide_eq_true hlev⟩
  · cases l with
    | nil => exact absurd rfl h
    | cons a t => exact ⟨_, List.mem_cons_self _ _, rfl⟩

/-- Helper: the H3 repair preserves the length of the outline. -/
theorem fixH3Aux_length (todo : List OutlineEntry) :
    ∀ done, (fixH3Aux done todo).length = done.length + todo.length := by
  induction todo with
  | nil => intro done; simp [fixH3Aux]
  | cons o rest ih =>
    intro done
    simp only [fixH3Aux]
    rw [ih]
    simp [List.length_append]
    omega

/-- Helper: the H3 repair preserves the H1/H2/H3 level range. -/
theorem fixH3Aux_levels (todo : List OutlineEntry) :
    ∀ done, (∀ o ∈ done, o.level = "H1" ∨ o.level = "H2" ∨ o.level = "H3") →
      (∀ o ∈ todo, o.level = "H1" ∨ o.level = "H2" ∨ o.level = "H3") →
      ∀ o ∈ fixH3Aux done todo, o.level = "H1" ∨ o.level = "H2" ∨ o.level = "H3" := by
  induction todo with
  | nil =>
    intro done hd ht
    simpa [fixH3Aux] using hd
  | cons o rest ih =>
    intro done hd ht
    simp only [fixH3Aux]
    apply ih
    · intro p hp
      rcases List.mem_append.mp hp with h1 | h2
      · exact hd p h1
      · have h3 := List.mem_singleton.mp h2
        subst h3
        split_ifs
        · exact Or.inr (Or.inl rfl)
        · exact ht o (List.mem_cons_self _ _)
    · intro p hp
      exact ht p (List.mem_cons_of_mem _ hp)

/-- Helper: the H3 repair never loses an H1 entry (it only turns H3 into
H2). -/
theorem fixH3Aux_exists_h1 (todo : List OutlineEntry) :
    ∀ done, ((∃ o ∈ done, o.level = "H1") ∨ (∃ o ∈ todo, o.level = "H1")) →
      ∃ o ∈ fixH3Aux done todo, o.level = "H1" := by
  induction todo with
  | nil =>
    intro done hcase
    rcases hcase with hca | hcb
    · simpa [fixH3Aux] using hca
    · obtain ⟨o, ho, _⟩ := hcb; cases ho
  | cons o rest ih =>
    intro done hcase
    simp only [fixH3Aux]
    apply ih
    rcases hcase with ⟨p, hp, hlev⟩ | ⟨p, hp, hlev⟩
    · exact Or.inl ⟨p, List.mem_append.mpr (Or.inl hp), hlev⟩
    · rcases List.mem_cons.mp hp with h1 | h2
      · subst h1
        refine Or.inl ⟨_, List.mem_append.mpr (Or.inr (List.mem_singleton.mpr rfl)), ?_⟩
        split_ifs with hc
        · exact absurd (hlev.symm.trans hc.1) (by decide)
        · exact hlev
      · exact Or.inr ⟨p, h2, hlev⟩

/-- C10: on every nonempty candidate list, `assign_levels` returns a
nonempty outline, every entry's level is one of H1, H2, H3, and at least
one entry is H1. -/
theorem assign_levels_invariants (cands : List ScoredLine) (h : cands ≠ []) :
    assign_levels cands ≠ [] ∧
      (∀ o ∈ assign_levels cands, o.level = "H1" ∨ o.level = "H2" ∨ o.level = "H3") ∧
      ∃ o ∈ assign_levels cands, o.level = "H1" := by
  obtain ⟨c, rest, rfl⟩ := List.exists_cons_of_ne_nil h
  have hne : (c :: rest).isEmpty = false := rfl
  simp only [assign_levels, hne, Bool.false_eq_true, if_false]
  have hraw_ne : emitLoop (thresholdsOf (c :: rest)) (c :: rest) [] ≠ [] := by
    simp [emitLoop]
  have hraw_lv := emitLoop_levels (thresholdsOf (c :: rest)) (c :: rest) []
  have hp_ne : promoteH1 (emitLoop (thresholdsOf (c :: rest)) (c :: rest) []) ≠ [] :=
    promoteH1_ne_nil hraw_ne
  have hp_lv := promoteH1_levels hraw_lv
  have hp_h1 := promoteH1_exists hraw_ne
  refine ⟨?_, ?_, ?_⟩
  · intro hcon
    have hlen := fixH3Aux_length (promoteH1 (emitLoop (thresholdsOf (c :: rest))
      (c :: rest) [])) []
    rw [fixH3] at hcon
    rw [hcon] at hlen
    simp at hlen
    exact hp_ne (List.length_eq_zero.mp hlen.symm)
  · exact fixH3Aux_levels _ [] (fun o ho => absurd ho (List.not_mem_nil o)) hp_lv
  · exact fixH3Aux_exists_h1 _ [] (Or.inr hp_h1)

/-- Witness for C10 at the singleton candidate list `[sl2]`. -/
theorem assign_levels_invariants_witness :
    ([sl2] : List ScoredLine) ≠ [] ∧
      (assign_levels [sl2] ≠ [] ∧
        (∀ o ∈ assign_levels [sl2],
          o.level = "H1" ∨ o.level = "H2" ∨ o.level = "H3") ∧
        ∃ o ∈ assign_levels [sl2], o.level = "H1") :=
  ⟨by simp, assign_levels_invariants [sl2] (by simp)⟩

